import Mathlib

/-!
Verification development for the path-resolution-and-cache core of
django-flexible-pages: a shallow embedding of `pages/validators.py`,
`pages/managers.py`, `pages/models.py` and `pages/middleware.py`,
together with theorems about path validation, cache behaviour, view
precedence, write-time validation and the request middleware.

External collaborators (the Django cache backend, the URL-pattern
registry `resolve`, the handler loader `get_callable`, and the
template-response render protocol) are modelled by explicit state or by
function parameters, as the spec describes them.
-/

namespace FlexiblePages

/-! ## Path validation (`pages/validators.py`)

`ROOT_RELATIVE_URL_REGEX = re.compile(ur'^/([a-z0-9\-]+/)*$')`
`is_root_relative_url(value)` returns whether `.match(value)` succeeded.

The matcher below translates the Python 2 `re` semantics of this
pattern.  Note that in Python, `$` (without `re.MULTILINE`) matches at
the end of the string AND just before a newline that is the last
character of the string, so `'/blah/\n'` is accepted by the source. -/

/-- One character of the class `[a-z0-9\-]` (ASCII ranges only). -/
def isSegChar (c : Char) : Bool :=
  (decide ('a' ≤ c) && decide (c ≤ 'z')) ||
  (decide ('0' ≤ c) && decide (c ≤ '9')) ||
  c == '-'

mutual

/-- Matcher state at a segment boundary (right after a `/`): we may stop
(`$` at end of string), stop at a final newline (Python's `$` also
matches just before a trailing newline), or read a further segment. -/
def matchSegs : List Char → Bool
  | [] => true
  | c :: cs =>
    if c == '\n' then cs.isEmpty
    else if isSegChar c then matchSegTail cs
    else false

/-- Matcher state inside a segment, after at least one `[a-z0-9-]`
character: a `/` closes the segment, a further segment character
continues it, anything else (including end of input) fails. -/
def matchSegTail : List Char → Bool
  | [] => false
  | c :: cs =>
    if c == '/' then matchSegs cs
    else if isSegChar c then matchSegTail cs
    else false

end

/-- `validators.is_root_relative_url`: whether
`re.match(ur'^/([a-z0-9\-]+/)*$', value)` succeeds (Python 2 `re`
semantics, see above). -/
def is_root_relative_url (s : String) : Bool :=
  match s.data with
  | c :: rest => if c = '/' then matchSegs rest else false
  | [] => false

/-! The spec's own reading of the regex, for comparison: the claim
glosses `^/([a-z0-9-]+/)*$` as "begins and ends with `/`, and every
segment between slashes consists only of lowercase ASCII letters,
digits, and hyphens" — the mathematical language of the regex, with `$`
meaning hard end-of-string. -/

mutual

/-- Segment-boundary state of the mathematical regex language
`/([a-z0-9-]+/)*` with `$` as hard end of string (no trailing-newline
allowance). -/
def specSegs : List Char → Bool
  | [] => true
  | c :: cs => if isSegChar c then specSegTail cs else false

/-- In-segment state of the mathematical regex language. -/
def specSegTail : List Char → Bool
  | [] => false
  | c :: cs =>
    if c == '/' then specSegs cs
    else if isSegChar c then specSegTail cs
    else false

end

/-- Membership of the full string in the mathematical language of
`^/([a-z0-9-]+/)*$`: this is the spec's description of path validity
(begins and ends with `/`, lowercase/digit/hyphen segments). -/
def specPathValid (s : String) : Bool :=
  match s.data with
  | c :: rest => if c = '/' then specSegs rest else false
  | [] => false

/-! ## Data model (`pages/models.py`)

`Page(ContentArea)` has fields `title`, `url` (unique, validated by
`validators.root_relative_url`), `summary`, `view` (optional string
naming a view callable), `template` (optional string).  The primary key
`pk` is inherited from the Django model base; it is `None` until the
row is first saved.  The opaque content payload belongs to the external
content subsystem and plays no part in the claims. -/

structure Page where
  pk : Option Nat
  title : String
  url : String
  summary : String
  view : Option String
  template : Option String
deriving DecidableEq

/-! ## The cache backend (external collaborator)

The source uses `django.core.cache.cache` with `get` / `set(key, value,
timeout)` / `delete`.  We model its state as an association list from
key to stored value plus absolute expiry instant; `set` stores
`now + timeout` as the expiry, and `get` treats an entry as present
while `now` is strictly before its expiry.  The values the program
stores are either a `Page` or the integer marker `CACHE_404_VALUE = -1`. -/

/-- A value stored in the cache by this program: the `-1` not-found
marker (`PageManager.CACHE_404_VALUE`) or a whole `Page` snapshot. -/
inductive CacheVal where
  | neg
  | pg (p : Page)
deriving DecidableEq

/-- Cache state: entries `(key, value, expiry instant)`. -/
abbrev Cache := List (String × CacheVal × Nat)

/-- `cache.get(key, default=None)` at instant `now`: the stored value,
unless absent or expired. -/
def cacheGet (c : Cache) (now : Nat) (key : String) : Option CacheVal :=
  match c.find? (fun e => e.1 == key) with
  | some (_, v, exp) => if now < exp then some v else none
  | none => none

/-- `cache.set(key, v, timeout)` at instant `now`: overwrite any entry
for `key`, expiring at `now + timeout`. -/
def cacheSet (c : Cache) (now : Nat) (key : String) (v : CacheVal)
    (timeout : Nat) : Cache :=
  (key, v, now + timeout) :: c.filter (fun e => !(e.1 == key))

/-- `cache.delete(key)`: remove any entry for `key`. -/
def cacheDelete (c : Cache) (key : String) : Cache :=
  c.filter (fun e => !(e.1 == key))

/-- `Page.get_key_for_path`: `'flexible_page_url_{}'` formatted with
`hashlib.sha224(path).hexdigest()`.  The cryptographic digest itself is
an external library routine; we pass it as the parameter `digest`, so
every theorem below holds for an arbitrary digest function (the claims
rely only on the derivation being a fixed pure function of the path). -/
def get_key_for_path (digest : String → String) (path : String) : String :=
  String.append "flexible_page_url_" (digest path)

/-! ## The resolution manager (`pages/managers.py`)

`PageManager` composes the validator, the cache and the database.  The
database (the external store) is modelled as the list of persisted
pages, queried with `filter(url=path)[:1][0]` — the first row whose
`url` equals the path.  To state the frame/effect claims we count the
observable external operations of each call. -/

/-- Counts of external operations performed by one manager call:
database queries, cache reads (`cache.get`, including the ones embedded
in `log.debug` argument evaluation), cache writes (`cache.set`), and
error-severity log records. -/
structure Stats where
  dbQueries : Nat
  cacheReads : Nat
  cacheWrites : Nat
  errorLogs : Nat
deriving DecidableEq

/-- The outcome of a resolution: a page, or the `Page.DoesNotExist`
exception. -/
inductive PageResult where
  | page (p : Page)
  | notFound
deriving DecidableEq

/-- `PageManager.CACHE_404_VALUE` is the integer `-1`, modelled as
`CacheVal.neg`. -/
def CACHE_404_VALUE : CacheVal := CacheVal.neg

/-- `PageManager.CACHE_TIMEOUT = 2*60`. -/
def CACHE_TIMEOUT : Nat := 2 * 60

/-- `PageManager.get_from_db(path, path_key)`: one database query
(`filter(url=path)[:1][0]`); on `IndexError` cache the `-1` marker and
raise `DoesNotExist`, otherwise cache the page and return it.  Either
branch then evaluates `cache.get(path_key, ...)` inside a `log.debug`
call (Python evaluates logging arguments eagerly), hence one cache
read. -/
def get_from_db (db : List Page) (c : Cache)
    (now : Nat) (path path_key : String) : PageResult × Cache × Stats :=
  match db.find? (fun q => q.url == path) with
  | none =>
      (PageResult.notFound,
       cacheSet c now path_key CACHE_404_VALUE CACHE_TIMEOUT,
       ⟨1, 1, 1, 0⟩)
  | some p =>
      (PageResult.page p,
       cacheSet c now path_key (CacheVal.pg p) CACHE_TIMEOUT,
       ⟨1, 1, 1, 0⟩)

/-- `PageManager.get_from_cache(path)`: derive the key, read the cache;
a cached `-1` raises `DoesNotExist`; a cached page is returned only if
its `url` equals the requested path, a mismatch being logged at error
severity as a hash collision and treated as a miss; on miss or
collision, fall through to `get_from_db`. -/
def get_from_cache (digest : String → String) (db : List Page) (c : Cache)
    (now : Nat) (path : String) : PageResult × Cache × Stats :=
  let path_key := get_key_for_path digest path
  match cacheGet c now path_key with
  | some CacheVal.neg => (PageResult.notFound, c, ⟨0, 1, 0, 0⟩)
  | some (CacheVal.pg p) =>
      if p.url == path then (PageResult.page p, c, ⟨0, 1, 0, 0⟩)
      else
        match get_from_db db c now path path_key with
        | (r, c2, st) =>
            (r, c2, ⟨st.dbQueries, st.cacheReads + 1, st.cacheWrites,
                     st.errorLogs + 1⟩)
  | none =>
      match get_from_db db c now path path_key with
      | (r, c2, st) =>
          (r, c2, ⟨st.dbQueries, st.cacheReads + 1, st.cacheWrites,
                   st.errorLogs⟩)

/-- `PageManager.get_for_url(path)`: reject syntactically invalid paths
outright (raising `DoesNotExist` with no cache or database access),
otherwise go through the cache. -/
def get_for_url (digest : String → String) (db : List Page) (c : Cache)
    (now : Nat) (path : String) : PageResult × Cache × Stats :=
  if is_root_relative_url path then get_from_cache digest db c now path
  else (PageResult.notFound, c, ⟨0, 0, 0, 0⟩)

/-! ## View resolution (`pages/models.py`, VIEW RESOLUTION section)

Two external collaborators supply handlers:
`django.core.urlresolvers.get_callable` loads a callable from a dotted
string (raising `ImportError` / `ViewDoesNotExist` on failure, which
`get_custom_view` swallows), and `django.core.urlresolvers.resolve`
matches a path against the URL-pattern registry (raising `Http404` on
no match).  We model them as parameters `loader` and `route`, each
returning `none` exactly when the source call raises one of those
caught exceptions.  Handlers are values of an arbitrary type `H`;
`views.default_page_view` (this repository's `DefaultPageView.as_view()`)
is passed in as the distinguished handler `dflt`. -/

/-- Python truthiness of the `view` field (`if self.view:`): both
`None` and the empty string are falsy. -/
def viewTruthy : Option String → Bool
  | none => false
  | some s => !(s == "")

/-- `Page.get_custom_view`: start from `None`; if `self.view` is
truthy, try `get_callable(self.view)`, swallowing `ImportError` and
`ViewDoesNotExist`; return the view or `None`. -/
def get_custom_view {H : Type} (loader : String → Option H)
    (pg : Page) : Option H :=
  match pg.view with
  | some v => if v == "" then none else loader v
  | none => none

/-- `Page.get_urlpattern_view`: `resolve(self.url)`, with `Http404`
mapped to `None` and a match mapped to its `.func`. -/
def get_urlpattern_view {H : Type} (route : String → Option H)
    (pg : Page) : Option H :=
  route pg.url

/-- `Page.get_view`: `self.get_custom_view() or
self.get_urlpattern_view() or default_page_view` — handler callables
are always truthy, so Python's `or` chain is first-`some`-wins with
`dflt` as the fallback. -/
def get_view {H : Type} (loader route : String → Option H) (dflt : H)
    (pg : Page) : H :=
  match get_custom_view loader pg with
  | some h => h
  | none =>
    match get_urlpattern_view route pg with
    | some h => h
    | none => dflt

/-! ## Write-time validation, save and delete (`pages/models.py`)

`Page.save` calls `self.full_clean()` before persisting.  Django's
`full_clean` runs (a) per-field cleaning — required/blank checks,
`max_length` checks, and the field validators, here
`validators.root_relative_url` on `url`; (b) `validate_unique`, which
checks `url` against every other row (excluding the instance itself by
primary key when it has one); and (c) the model's `clean()`, here
`Page.validate_view`.  Any failure raises `ValidationError` and nothing
is persisted. -/

/-- Django per-field cleaning for `Page`: `title` required with
`max_length=150`; `url` required with `max_length=200` and validator
`root_relative_url`; `summary` blank allowed, `max_length=250`; `view`
blank allowed, `max_length=100`; `template` blank allowed,
`max_length=250`. -/
def clean_fields (pg : Page) : Bool :=
  !(pg.title == "") && pg.title.length ≤ 150 &&
  !(pg.url == "") && pg.url.length ≤ 200 && is_root_relative_url pg.url &&
  pg.summary.length ≤ 250 &&
  (match pg.view with | none => true | some v => v.length ≤ 100) &&
  (match pg.template with | none => true | some t => t.length ≤ 250)

/-- Django `validate_unique` for the unique `url` field: every row
other than the instance itself (same primary key, when the instance has
one) must carry a different `url`. -/
def validate_unique (db : List Page) (pg : Page) : Bool :=
  db.all fun q =>
    (match pg.pk with
     | some k => q.pk == some k
     | none => false) ||
    !(q.url == pg.url)

/-- `Page.validate_view` (run by `Page.clean`): if `self.view` is
truthy but `get_custom_view()` is `None`, raise `ValidationError`. -/
def validate_view {H : Type} (loader : String → Option H)
    (pg : Page) : Bool :=
  !(viewTruthy pg.view && (get_custom_view loader pg).isNone)

/-- Django `full_clean` for a `Page`: field cleaning, uniqueness, and
the model's `clean` (`validate_view`). -/
def full_clean {H : Type} (loader : String → Option H) (db : List Page)
    (pg : Page) : Bool :=
  clean_fields pg && validate_unique db pg && validate_view loader pg

/-- Outcome of `Page.save`: either the row was persisted, or
`full_clean` raised `ValidationError`. -/
inductive SaveResult where
  | ok
  | validationError
deriving DecidableEq

/-- A fresh primary key for an insert: one more than the largest key in
use (the store's auto-increment; its exact choice is irrelevant to the
claims). -/
def freshPk (db : List Page) : Nat :=
  (db.foldl (fun m q => max m (match q.pk with | some k => k | none => 0)) 0)
    + 1

/-- `super(Page, self).save()`: update the row with the instance's
primary key, or insert with a fresh key. -/
def dbUpsert (db : List Page) (pg : Page) : List Page :=
  match pg.pk with
  | some k =>
      if db.any (fun q => q.pk == some k) then
        db.map fun q => if q.pk == some k then pg else q
      else db ++ [pg]
  | none => db ++ [{ pg with pk := some (freshPk db) }]

/-- `Page.save`: `self.full_clean()` (raising `ValidationError` and
persisting nothing on failure), then `super().save()`, then
`cache.delete(Page.get_key_for_path(self.url))` — note the key is
derived from the instance's current `url` value. -/
def page_save {H : Type} (digest : String → String)
    (loader : String → Option H) (db : List Page) (c : Cache)
    (pg : Page) : SaveResult × List Page × Cache :=
  if full_clean loader db pg then
    (SaveResult.ok, dbUpsert db pg,
     cacheDelete c (get_key_for_path digest pg.url))
  else (SaveResult.validationError, db, c)

/-- `Page.delete`: remember `self.url`, `super().delete()` (remove the
row with this primary key), then `cache.delete` of the remembered
path's key. -/
def page_delete (digest : String → String) (db : List Page) (c : Cache)
    (pg : Page) : List Page × Cache :=
  (db.filter (fun q => !(q.pk == pg.pk)),
   cacheDelete c (get_key_for_path digest pg.url))

/-! ## The middleware (`pages/middleware.py`)

`PageMiddleware.process_request` resolves `request.path` through
`Page.objects.get_for_url`; on `DoesNotExist` it returns `None`
(declining, so the normal URL routing proceeds).  When the resolved
page has no custom view but its URL matches a URL pattern, it also
declines.  Otherwise it obtains the page's response and finalizes it.

The middleware obtains the response as `cms_match.get_response(request)`.
Modelled from the spec: `get_response` is not defined on `Page` in this
repository's source (which defines `get_rendered_content`; the call
resolves through the external `ContentArea` base class); spec section
4.6 states the step as "invoke the resolved handler with
`(request, page)`, obtain the rendered response", which is exactly what
`Page.get_rendered_content` does, so we model the call with that
behaviour.

The response protocol (`is_rendered` / `render()`) is the external
template-engine interface: a deferred response is finalized by
`render()`, after which `is_rendered` is true. -/

/-- The part of the HTTP request the core consumes: its path. -/
structure Request where
  path : String
deriving DecidableEq

/-- The external response object: whether it has been rendered, and an
opaque body. -/
structure Response where
  is_rendered : Bool
  body : String
deriving DecidableEq

/-- Modelled from the spec: the template engine's `render()` finalizes
a deferred response, after which `is_rendered` is true (the body is
whatever the response renders to; we keep it unchanged since no claim
inspects it). -/
def renderResponse (r : Response) : Response :=
  { r with is_rendered := true }

/-- A view callable as the middleware uses it: invoked with the request
and the page (`view(request, flexible_page=self)`). -/
abbrev Handler := Request → Page → Response

/-- `Page.get_rendered_content(request)`: resolve the view with
`get_view` and call it with the request and this page. -/
def get_rendered_content (loader route : String → Option Handler)
    (dflt : Handler) (pg : Page) (req : Request) : Response :=
  get_view loader route dflt pg req pg

/-- `PageMiddleware.process_request`: resolve the path (returning the
possibly-updated cache and the operation counts alongside the optional
response); decline on `DoesNotExist`; decline when there is no custom
view but a URL-pattern view; otherwise obtain the page's response,
render it if it is not yet rendered, and return it. -/
def process_request (digest : String → String)
    (loader route : String → Option Handler) (dflt : Handler)
    (db : List Page) (c : Cache) (now : Nat) (req : Request) :
    Option Response × Cache × Stats :=
  match get_for_url digest db c now req.path with
  | (PageResult.notFound, c2, st) => (none, c2, st)
  | (PageResult.page pg, c2, st) =>
      if (get_custom_view loader pg).isNone &&
         (get_urlpattern_view route pg).isSome then
        (none, c2, st)
      else
        let response := get_rendered_content loader route dflt pg req
        let final :=
          if response.is_rendered then response else renderResponse response
        (some final, c2, st)

/-! ## Helper lemmas about the cache and store models -/

/-- Looking for a key other than the one filtered out is unaffected by
the filtering. -/
theorem find?_filter_not_key (l : Cache) (key k : String) (hne : k ≠ key) :
    (l.filter (fun e => !(e.1 == key))).find? (fun e => e.1 == k)
      = l.find? (fun e => e.1 == k) := by
  have hkk : ¬(key = k) := fun h => hne h.symm
  induction l with
  | nil => rfl
  | cons a t ih =>
    by_cases hkey : a.1 = key
    · simp [List.filter_cons, hkey, List.find?_cons, hkk, ih]
    · by_cases hk : a.1 = k
      · simp [List.filter_cons, hkey, List.find?_cons, hk, hne]
      · simp [List.filter_cons, hkey, List.find?_cons, hk, ih]

/-- After filtering a key out, looking for that key finds nothing. -/
theorem find?_filter_key (l : Cache) (key : String) :
    (l.filter (fun e => !(e.1 == key))).find? (fun e => e.1 == key)
      = none := by
  rw [List.find?_eq_none]
  intro a ha
  have := List.of_mem_filter ha
  simp at this
  simp [this]

/-- Reading the key just written returns the written value until its
expiry instant. -/
theorem cacheGet_set_self (c : Cache) (now t now2 : Nat) (key : String)
    (v : CacheVal) :
    cacheGet (cacheSet c now key v t) now2 key
      = if now2 < now + t then some v else none := by
  simp [cacheGet, cacheSet, List.find?_cons]

/-- Writing one key leaves reads of any other key unchanged. -/
theorem cacheGet_set_other (c : Cache) (now t now2 : Nat) (key k : String)
    (v : CacheVal) (hne : k ≠ key) :
    cacheGet (cacheSet c now key v t) now2 k = cacheGet c now2 k := by
  have hk : (key == k) = false := by
    simp
    exact fun h => hne h.symm
  simp [cacheGet, cacheSet, List.find?_cons, hk,
        find?_filter_not_key c key k hne]

/-- Deleting a key removes every entry under it. -/
theorem cacheGet_delete_self (c : Cache) (now : Nat) (key : String) :
    cacheGet (cacheDelete c key) now key = none := by
  unfold cacheGet cacheDelete
  rw [find?_filter_key]

/-- A page found by the store query `filter(url=path)[:1][0]` has
exactly the requested path as its `url`. -/
theorem find?_url_eq (db : List Page) (path : String) (p : Page)
    (h : db.find? (fun q => q.url == path) = some p) : p.url = path := by
  have := List.find?_some h
  simpa using this

/-! ## Claim theorems -/

/-- C1: for every string path that fails the path-validity predicate,
`get_for_url(path)` raises `Page.DoesNotExist` immediately: the cache
state is returned unchanged and the operation counters are all zero —
no cache read, no cache write, and no database query. -/
theorem get_for_url_invalid_path_no_access (digest : String → String)
    (db : List Page) (c : Cache) (now : Nat) (path : String)
    (h : is_root_relative_url path = false) :
    get_for_url digest db c now path
      = (PageResult.notFound, c, ⟨0, 0, 0, 0⟩) := by
  simp [get_for_url, h]

theorem get_for_url_invalid_path_no_access_witness :
    is_root_relative_url "asdf" = false ∧
    get_for_url (fun s => s) [] [] 0 "asdf"
      = (PageResult.notFound, [], ⟨0, 0, 0, 0⟩) :=
  ⟨by decide,
   get_for_url_invalid_path_no_access (fun s => s) [] [] 0 "asdf"
     (by decide)⟩

/-- C3: `get_view` applies strict precedence. (1) When the `view`
field is set (truthy) and the loader resolves it, the custom view is
returned. (2) Otherwise, when the URL-pattern registry matches
`page.url`, that view is returned. (3) Otherwise `default_page_view`
(the `dflt` parameter) is returned. (4)–(5) An unset or unloadable
(`ImportError`/`ViewDoesNotExist`) identifier is not an error:
`get_custom_view` is simply `none`, so resolution falls through to the
next tier. -/
theorem get_view_precedence {H : Type} (loader route : String → Option H)
    (dflt : H) (pg : Page) :
    (∀ v h, pg.view = some v → (v == "") = false → loader v = some h →
        get_view loader route dflt pg = h) ∧
    (get_custom_view loader pg = none → ∀ h, route pg.url = some h →
        get_view loader route dflt pg = h) ∧
    (get_custom_view loader pg = none → route pg.url = none →
        get_view loader route dflt pg = dflt) ∧
    (pg.view = none → get_custom_view loader pg = none) ∧
    (∀ v, pg.view = some v → loader v = none →
        get_custom_view loader pg = none) := by
  refine ⟨?_, ?_, ?_, ?_, ?_⟩
  · intro v h hv hne hl
    simp [get_view, get_custom_view, hv, hne, hl]
  · intro hc h hr
    simp [get_view, hc, get_urlpattern_view, hr]
  · intro hc hr
    simp [get_view, hc, get_urlpattern_view, hr]
  · intro hv
    simp [get_custom_view, hv]
  · intro v hv hl
    simp [get_custom_view, hv, hl]

theorem get_view_precedence_witness :
    get_view (fun s => if s == "good" then some 1 else none)
        (fun s => if s == "/r/" then some 2 else none) 3
        ⟨none, "T", "/p/", "", some "good", none⟩ = 1 ∧
    get_view (fun s => if s == "good" then some 1 else none)
        (fun s => if s == "/r/" then some 2 else none) 3
        ⟨none, "T", "/r/", "", some "bad", none⟩ = 2 ∧
    get_view (fun s => if s == "good" then some 1 else none)
        (fun s => if s == "/r/" then some 2 else none) 3
        ⟨none, "T", "/p/", "", none, none⟩ = 3 :=
  ⟨(get_view_precedence (fun s => if s == "good" then some 1 else none)
      (fun s => if s == "/r/" then some 2 else none) 3
      ⟨none, "T", "/p/", "", some "good", none⟩).1 "good" 1 rfl (by decide)
      (by decide),
   (get_view_precedence (fun s => if s == "good" then some 1 else none)
      (fun s => if s == "/r/" then some 2 else none) 3
      ⟨none, "T", "/r/", "", some "bad", none⟩).2.1 (by decide) 2 (by decide),
   (get_view_precedence (fun s => if s == "good" then some 1 else none)
      (fun s => if s == "/r/" then some 2 else none) 3
      ⟨none, "T", "/p/", "", none, none⟩).2.2.1 (by decide) (by decide)⟩

/-- C4: when the cache holds a positive entry under the derived key,
`get_from_cache` returns the cached page with no database query exactly
when the stored `url` equals the requested path; on a mismatch it logs
one error, performs the database lookup (one query), returns the
store's answer, and never returns the mismatching cached page as a
hit. -/
theorem get_from_cache_collision_detected (digest : String → String)
    (db : List Page) (c : Cache) (now : Nat) (path : String) (q : Page)
    (hq : cacheGet c now (get_key_for_path digest path)
            = some (CacheVal.pg q)) :
    (q.url = path →
       get_from_cache digest db c now path
         = (PageResult.page q, c, ⟨0, 1, 0, 0⟩)) ∧
    (q.url ≠ path →
       (get_from_cache digest db c now path).2.2.dbQueries = 1 ∧
       (get_from_cache digest db c now path).2.2.errorLogs = 1 ∧
       (get_from_cache digest db c now path).1
         = (get_from_db db c now path (get_key_for_path digest path)).1 ∧
       (get_from_cache digest db c now path).1 ≠ PageResult.page q) := by
  constructor
  · intro heq
    simp [get_from_cache, hq, heq]
  · intro hne
    have hbe : (q.url == path) = false := by simp [hne]
    cases hfind : db.find? (fun p => p.url == path) with
    | none =>
        simp [get_from_cache, hq, hbe, get_from_db, hfind]
    | some p =>
        have hp : p.url = path := find?_url_eq db path p hfind
        have hpq : p ≠ q := fun h => hne (h ▸ hp)
        simp [get_from_cache, hq, hbe, get_from_db, hfind, hpq]

theorem get_from_cache_collision_detected_witness :
    (let digest := fun (s : String) => s
     let q : Page := ⟨some 1, "T", "/other/", "", none, none⟩
     let c : Cache := [(get_key_for_path digest "/blog/", CacheVal.pg q, 5)]
     cacheGet c 0 (get_key_for_path digest "/blog/")
        = some (CacheVal.pg q) ∧
     (get_from_cache digest [] c 0 "/blog/").2.2.dbQueries = 1 ∧
     (get_from_cache digest [] c 0 "/blog/").1 ≠ PageResult.page q) := by
  refine ⟨by decide, ?_, ?_⟩
  · exact ((get_from_cache_collision_detected (fun s => s) [] _ 0 "/blog/"
      ⟨some 1, "T", "/other/", "", none, none⟩ (by decide)).2
      (by decide)).1
  · exact ((get_from_cache_collision_detected (fun s => s) [] _ 0 "/blog/"
      ⟨some 1, "T", "/other/", "", none, none⟩ (by decide)).2
      (by decide)).2.2.2

/-- C9: `Page.save` raises `ValidationError` — returning the store and
cache unchanged, so nothing is persisted — whenever the `url` fails the
path-syntax predicate, or the `url` duplicates another existing page's
`url`, or a non-empty `view` identifier fails to load (`full_clean` is
forced by `save` itself, so the error surfaces at write time). -/
theorem page_save_validation_error {H : Type} (digest : String → String)
    (loader : String → Option H) (db : List Page) (c : Cache) (pg : Page)
    (h : is_root_relative_url pg.url = false
       ∨ (∃ q ∈ db, q.url = pg.url ∧ q.pk ≠ pg.pk)
       ∨ (∃ v, pg.view = some v ∧ v ≠ "" ∧ loader v = none)) :
    page_save digest loader db c pg
      = (SaveResult.validationError, db, c) := by
  have hfc : full_clean loader db pg = false := by
    rcases h with h | ⟨q, hq, hurl, hpk⟩ | ⟨v, hv, hne, hl⟩
    · simp [full_clean, clean_fields, h]
    · have hvu : validate_unique db pg = false := by
        rw [validate_unique, List.all_eq_false]
        refine ⟨q, hq, ?_⟩
        cases hpg : pg.pk with
        | some k =>
            rw [hpg] at hpk
            simp [hurl, hpk]
        | none => simp [hurl]
      simp [full_clean, hvu]
    · have hvv : validate_view loader pg = false := by
        simp [validate_view, viewTruthy, get_custom_view, hv, hne, hl]
      simp [full_clean, hvv]
  simp [page_save, hfc]

theorem page_save_validation_error_witness :
    page_save (fun s => s) (fun _ => (none : Option Nat)) [] []
        ⟨none, "T", "bad-url", "", none, none⟩
      = (SaveResult.validationError, [], []) :=
  page_save_validation_error (fun s => s) (fun _ => none) [] []
    ⟨none, "T", "bad-url", "", none, none⟩ (Or.inl (by decide))

/-- C6 is false as stated: a successful `Page.save` only deletes the
cache key derived from the instance's current `url`.  Here a page
cached under its old path `/a/` is saved with its `url` changed to
`/b/`; the save succeeds, yet the cache still serves the stale positive
entry for `/a/` afterwards, so the entry for the former path was not
invalidated. -/
theorem save_url_change_stale_counterexample :
    (page_save (fun s => s) (fun _ => (none : Option Nat))
        [⟨some 1, "T", "/a/", "", none, none⟩]
        [(get_key_for_path (fun s => s) "/a/",
          CacheVal.pg ⟨some 1, "T", "/a/", "", none, none⟩, 1000)]
        ⟨some 1, "T", "/b/", "", none, none⟩).1 = SaveResult.ok ∧
    cacheGet (page_save (fun s => s) (fun _ => (none : Option Nat))
        [⟨some 1, "T", "/a/", "", none, none⟩]
        [(get_key_for_path (fun s => s) "/a/",
          CacheVal.pg ⟨some 1, "T", "/a/", "", none, none⟩, 1000)]
        ⟨some 1, "T", "/b/", "", none, none⟩).2.2 0
        (get_key_for_path (fun s => s) "/a/")
      = some (CacheVal.pg ⟨some 1, "T", "/a/", "", none, none⟩) := by
  decide

/-- C6 (amended): every successful `Page.save` invalidates the cache
entry for the page's current (post-save) `url`, and every
`Page.delete` invalidates the cache entry for the deleted page's
`url`; after the write the cache holds no entry under that key.  (The
entry for a former path after a `url` change is NOT invalidated — see
the counterexample.) -/
theorem save_delete_invalidate_current_path {H : Type}
    (digest : String → String) (loader : String → Option H)
    (db : List Page) (c : Cache) (pg : Page) (now : Nat) :
    ((page_save digest loader db c pg).1 = SaveResult.ok →
       cacheGet (page_save digest loader db c pg).2.2 now
         (get_key_for_path digest pg.url) = none) ∧
    cacheGet (page_delete digest db c pg).2 now
      (get_key_for_path digest pg.url) = none := by
  constructor
  · intro hok
    by_cases hfc : full_clean loader db pg
    · simp only [page_save, if_pos hfc]
      exact cacheGet_delete_self c now (get_key_for_path digest pg.url)
    · simp [page_save, hfc] at hok
  · exact cacheGet_delete_self c now (get_key_for_path digest pg.url)

theorem save_delete_invalidate_current_path_witness :
    cacheGet (page_save (fun s => s) (fun _ => (none : Option Nat))
        [⟨some 1, "T", "/a/", "", none, none⟩]
        [(get_key_for_path (fun s => s) "/a/",
          CacheVal.pg ⟨some 1, "T", "/a/", "", none, none⟩, 1000)]
        ⟨some 1, "T", "/b/", "", none, none⟩).2.2 0
        (get_key_for_path (fun s => s) "/b/") = none :=
  (save_delete_invalidate_current_path (fun s => s) (fun _ => none)
      [⟨some 1, "T", "/a/", "", none, none⟩]
      [(get_key_for_path (fun s => s) "/a/",
        CacheVal.pg ⟨some 1, "T", "/a/", "", none, none⟩, 1000)]
      ⟨some 1, "T", "/b/", "", none, none⟩ 0).1 (by decide)

/-- Any page returned by `get_for_url` carries exactly the requested
path as its `url`: a cache hit is guarded by the `url` comparison, and
the store query selects on `url == path`. -/
theorem resolved_url_eq (digest : String → String) (db : List Page)
    (c : Cache) (now : Nat) (path : String) (pg : Page) (c2 : Cache)
    (st : Stats)
    (h : get_for_url digest db c now path
           = (PageResult.page pg, c2, st)) :
    pg.url = path := by
  by_cases hv : is_root_relative_url path
  · rw [get_for_url, if_pos hv] at h
    cases hc : cacheGet c now (get_key_for_path digest path) with
    | none =>
        cases hfind : db.find? (fun q => q.url == path) with
        | none => simp [get_from_cache, hc, get_from_db, hfind] at h
        | some p =>
            simp [get_from_cache, hc, get_from_db, hfind] at h
            have hp := find?_url_eq db path p hfind
            rw [← h.1]
            exact hp
    | some val =>
        cases val with
        | neg => simp [get_from_cache, hc] at h
        | pg q =>
            by_cases hq : q.url = path
            · simp [get_from_cache, hc, hq] at h
              rw [← h.1]
              exact hq
            · have hbe : (q.url == path) = false := by simp [hq]
              cases hfind : db.find? (fun r => r.url == path) with
              | none => simp [get_from_cache, hc, hbe, get_from_db, hfind] at h
              | some p =>
                  simp [get_from_cache, hc, hbe, get_from_db, hfind] at h
                  have hp := find?_url_eq db path p hfind
                  rw [← h.1]
                  exact hp
  · rw [get_for_url, if_neg hv] at h
    simp at h

/-- C7: when the requested path resolves to a page that has no loadable
custom view and the URL-pattern registry matches the path,
`process_request` declines to handle — it returns `None` and never
renders the page. -/
theorem process_request_defers_to_static_route (digest : String → String)
    (loader route : String → Option Handler) (dflt : Handler)
    (db : List Page) (c : Cache) (now : Nat) (req : Request) (pg : Page)
    (c2 : Cache) (st : Stats)
    (hres : get_for_url digest db c now req.path
              = (PageResult.page pg, c2, st))
    (hcv : get_custom_view loader pg = none)
    (hroute : ∃ h, route req.path = some h) :
    process_request digest loader route dflt db c now req
      = (none, c2, st) := by
  have hurl : pg.url = req.path :=
    resolved_url_eq digest db c now req.path pg c2 st hres
  obtain ⟨h, hroute⟩ := hroute
  simp [process_request, hres, hcv, get_urlpattern_view, hurl, hroute]

/-- C8: when the requested path resolves to a page that has a loadable
custom view or no matching URL pattern, `process_request` invokes the
resolved view with the request and the page
(`get_rendered_content`), finalizes the response when `is_rendered` is
false, and returns the fully rendered response. -/
theorem process_request_renders_response (digest : String → String)
    (loader route : String → Option Handler) (dflt : Handler)
    (db : List Page) (c : Cache) (now : Nat) (req : Request) (pg : Page)
    (c2 : Cache) (st : Stats)
    (hres : get_for_url digest db c now req.path
              = (PageResult.page pg, c2, st))
    (hcond : get_custom_view loader pg ≠ none ∨ route req.path = none) :
    process_request digest loader route dflt db c now req
      = (some (if (get_rendered_content loader route dflt pg req).is_rendered
               then get_rendered_content loader route dflt pg req
               else renderResponse
                      (get_rendered_content loader route dflt pg req)),
         c2, st) ∧
    (if (get_rendered_content loader route dflt pg req).is_rendered
     then get_rendered_content loader route dflt pg req
     else renderResponse
            (get_rendered_content loader route dflt pg req)).is_rendered
      = true := by
  have hurl : pg.url = req.path :=
    resolved_url_eq digest db c now req.path pg c2 st hres
  have hcond2 : ((get_custom_view loader pg).isNone &&
      (get_urlpattern_view route pg).isSome) = false := by
    rcases hcond with hcv | hr
    · rcases hx : get_custom_view loader pg with _ | v
      · exact absurd hx hcv
      · simp [hx]
    · simp [get_urlpattern_view, hurl, hr]
  constructor
  · simp [process_request, hres, hcond2]
  · by_cases hir : (get_rendered_content loader route dflt pg req).is_rendered
    · simp [hir]
    · simp [hir, renderResponse]

theorem process_request_defers_to_static_route_witness :
    process_request (fun s => s) (fun _ => none)
        (fun _ => some (fun _ _ => Response.mk true "route"))
        (fun _ _ => Response.mk true "default")
        [⟨some 1, "Home", "/", "", none, none⟩] [] 0 ⟨"/"⟩
      = (none,
         [("flexible_page_url_/",
           CacheVal.pg ⟨some 1, "Home", "/", "", none, none⟩, 120)],
         ⟨1, 2, 1, 0⟩) :=
  process_request_defers_to_static_route (fun s => s) (fun _ => none)
    (fun _ => some (fun _ _ => Response.mk true "route"))
    (fun _ _ => Response.mk true "default")
    [⟨some 1, "Home", "/", "", none, none⟩] [] 0 ⟨"/"⟩
    ⟨some 1, "Home", "/", "", none, none⟩
    [("flexible_page_url_/",
      CacheVal.pg ⟨some 1, "Home", "/", "", none, none⟩, 120)]
    ⟨1, 2, 1, 0⟩ (by decide) rfl
    ⟨fun _ _ => Response.mk true "route", rfl⟩

theorem process_request_renders_response_witness :
    process_request (fun s => s)
        (fun _ => some (fun _ _ => Response.mk false "custom"))
        (fun _ => none) (fun _ _ => Response.mk true "default")
        [⟨some 1, "Home", "/", "", some "my.view", none⟩] [] 0 ⟨"/"⟩
      = (some (Response.mk true "custom"),
         [("flexible_page_url_/",
           CacheVal.pg ⟨some 1, "Home", "/", "", some "my.view", none⟩,
           120)],
         ⟨1, 2, 1, 0⟩) :=
  ((process_request_renders_response (fun s => s)
      (fun _ => some (fun _ _ => Response.mk false "custom"))
      (fun _ => none) (fun _ _ => Response.mk true "default")
      [⟨some 1, "Home", "/", "", some "my.view", none⟩] [] 0 ⟨"/"⟩
      ⟨some 1, "Home", "/", "", some "my.view", none⟩
      [("flexible_page_url_/",
        CacheVal.pg ⟨some 1, "Home", "/", "", some "my.view", none⟩,
        120)]
      ⟨1, 2, 1, 0⟩ (by decide) (Or.inr rfl)).1).trans rfl

/-- Shape of the cache after one resolution: either it is returned
unchanged with no cache write and no database query, or it is the input
cache with exactly one entry written under the derived key with the
fixed `CACHE_TIMEOUT`, together with exactly one database query. -/
theorem get_for_url_cache_shape (digest : String → String)
    (db : List Page) (c : Cache) (now : Nat) (path : String) :
    ((get_for_url digest db c now path).2.1 = c ∧
     (get_for_url digest db c now path).2.2.cacheWrites = 0 ∧
     (get_for_url digest db c now path).2.2.dbQueries = 0) ∨
    (∃ v, (get_for_url digest db c now path).2.1
        = cacheSet c now (get_key_for_path digest path) v CACHE_TIMEOUT ∧
     (get_for_url digest db c now path).2.2.cacheWrites = 1 ∧
     (get_for_url digest db c now path).2.2.dbQueries = 1) := by
  by_cases hv : is_root_relative_url path
  · cases hc : cacheGet c now (get_key_for_path digest path) with
    | none =>
        cases hfind : db.find? (fun q => q.url == path) with
        | none =>
            right
            exact ⟨CACHE_404_VALUE,
              by simp [get_for_url, hv, get_from_cache, hc, get_from_db,
                       hfind]⟩
        | some p =>
            right
            exact ⟨CacheVal.pg p,
              by simp [get_for_url, hv, get_from_cache, hc, get_from_db,
                       hfind]⟩
    | some val =>
        cases val with
        | neg => left; simp [get_for_url, hv, get_from_cache, hc]
        | pg q =>
            by_cases hq : q.url = path
            · left; simp [get_for_url, hv, get_from_cache, hc, hq]
            · have hbe : (q.url == path) = false := by simp [hq]
              cases hfind : db.find? (fun r => r.url == path) with
              | none =>
                  right
                  exact ⟨CACHE_404_VALUE,
                    by simp [get_for_url, hv, get_from_cache, hc, hbe,
                             get_from_db, hfind]⟩
              | some p =>
                  right
                  exact ⟨CacheVal.pg p,
                    by simp [get_for_url, hv, get_from_cache, hc, hbe,
                             get_from_db, hfind]⟩
  · left; simp [get_for_url, hv]

/-- C10: the read path never refreshes an entry's lifetime.
`CACHE_TIMEOUT` is 120 seconds; a cache hit — positive (matching `url`)
or negative — returns the cache unchanged with zero cache writes; over
a whole resolution the number of cache writes equals the number of
database queries and is at most one; and every key of the resulting
cache either holds exactly the entry it held before the call, or holds
an entry written at this call's store lookup, expiring at
`now + CACHE_TIMEOUT`. -/
theorem resolution_cache_write_discipline (digest : String → String)
    (db : List Page) (c : Cache) (now : Nat) (path : String) :
    CACHE_TIMEOUT = 120 ∧
    (∀ q, cacheGet c now (get_key_for_path digest path)
            = some (CacheVal.pg q) → q.url = path →
       (get_from_cache digest db c now path).2.1 = c ∧
       (get_from_cache digest db c now path).2.2.cacheWrites = 0) ∧
    (cacheGet c now (get_key_for_path digest path) = some CacheVal.neg →
       (get_from_cache digest db c now path).2.1 = c ∧
       (get_from_cache digest db c now path).2.2.cacheWrites = 0) ∧
    ((get_for_url digest db c now path).2.2.cacheWrites
       = (get_for_url digest db c now path).2.2.dbQueries ∧
     (get_for_url digest db c now path).2.2.dbQueries ≤ 1) ∧
    (∀ k, ((get_for_url digest db c now path).2.1).find?
             (fun e => e.1 == k)
            = c.find? (fun e => e.1 == k) ∨
          ∃ v, ((get_for_url digest db c now path).2.1).find?
                  (fun e => e.1 == k)
                 = some (k, v, now + CACHE_TIMEOUT)) := by
  refine ⟨rfl, ?_, ?_, ?_, ?_⟩
  · intro q hq hqe
    simp [get_from_cache, hq, hqe]
  · intro hq
    simp [get_from_cache, hq]
  · rcases get_for_url_cache_shape digest db c now path with
      ⟨_, hw, hq⟩ | ⟨v, _, hw, hq⟩
    · rw [hw, hq]; exact ⟨rfl, by omega⟩
    · rw [hw, hq]; exact ⟨rfl, by omega⟩
  · intro k
    rcases get_for_url_cache_shape digest db c now path with
      ⟨hcc, _, _⟩ | ⟨v, hcc, _, _⟩
    · left; rw [hcc]
    · rw [hcc]
      by_cases hk : k = get_key_for_path digest path
      · right
        refine ⟨v, ?_⟩
        subst hk
        simp [cacheSet, List.find?_cons]
      · left
        have hne : (get_key_for_path digest path == k) = false := by
          simp
          exact fun h => hk h.symm
        simp [cacheSet, List.find?_cons, hne,
              find?_filter_not_key c (get_key_for_path digest path) k hk]

theorem resolution_cache_write_discipline_witness :
    (get_from_cache (fun s => s) [] [("flexible_page_url_/a/",
        CacheVal.pg ⟨some 1, "T", "/a/", "", none, none⟩, 50)] 0 "/a/").2.1
      = [("flexible_page_url_/a/",
          CacheVal.pg ⟨some 1, "T", "/a/", "", none, none⟩, 50)] ∧
    (get_from_cache (fun s => s) [] [("flexible_page_url_/a/",
        CacheVal.pg ⟨some 1, "T", "/a/", "", none, none⟩, 50)] 0
        "/a/").2.2.cacheWrites = 0 :=
  (resolution_cache_write_discipline (fun s => s) []
      [("flexible_page_url_/a/",
        CacheVal.pg ⟨some 1, "T", "/a/", "", none, none⟩, 50)] 0
      "/a/").2.1 ⟨some 1, "T", "/a/", "", none, none⟩ (by decide) rfl

/-- After `get_from_db` populates the cache at instant `t0`, a
resolution of the same valid path at any instant `t1` before the
entry's expiry is served from the cache — same outcome, zero database
queries. -/
theorem db_branch_second_hit (digest : String → String) (db : List Page)
    (c : Cache) (p : String) (t0 t1 : Nat)
    (hval : is_root_relative_url p = true)
    (httl : t1 < t0 + CACHE_TIMEOUT) :
    (get_for_url digest db
        (get_from_db db c t0 p (get_key_for_path digest p)).2.1 t1 p).1
      = (get_from_db db c t0 p (get_key_for_path digest p)).1 ∧
    (get_for_url digest db
        (get_from_db db c t0 p (get_key_for_path digest p)).2.1
        t1 p).2.2.dbQueries = 0 := by
  cases hfind : db.find? (fun q => q.url == p) with
  | none =>
      have hget : cacheGet
          (cacheSet c t0 (get_key_for_path digest p) CacheVal.neg
            CACHE_TIMEOUT) t1 (get_key_for_path digest p)
          = some CacheVal.neg := by
        rw [cacheGet_set_self]
        simp [httl]
      simp [get_from_db, hfind, get_for_url, hval, get_from_cache, hget,
            CACHE_404_VALUE]
  | some q =>
      have hq : q.url = p := find?_url_eq db p q hfind
      have hget : cacheGet
          (cacheSet c t0 (get_key_for_path digest p) (CacheVal.pg q)
            CACHE_TIMEOUT) t1 (get_key_for_path digest p)
          = some (CacheVal.pg q) := by
        rw [cacheGet_set_self]
        simp [httl]
      simp [get_from_db, hfind, get_for_url, hval, get_from_cache, hget, hq]

/-- C5: for a valid path, with no intervening operation between the two
calls, no expiry of the entry the first call relied on, and the second
call within `CACHE_TIMEOUT` of the first, a second `get_for_url`
performs zero database queries and yields the same outcome as the
first call — the equal page, or `DoesNotExist` again (the absence
having been negatively cached by the first call). -/
theorem get_for_url_second_call_cached (digest : String → String)
    (db : List Page) (c0 : Cache) (p : String) (t0 t1 : Nat)
    (hval : is_root_relative_url p = true)
    (ht01 : t0 ≤ t1)
    (httl : t1 < t0 + CACHE_TIMEOUT)
    (hnoexp : ∀ k v e,
        c0.find? (fun x => x.1 == get_key_for_path digest p)
          = some (k, v, e) → t0 < e → t1 < e) :
    (get_for_url digest db (get_for_url digest db c0 t0 p).2.1 t1 p).1
      = (get_for_url digest db c0 t0 p).1 ∧
    (get_for_url digest db (get_for_url digest db c0 t0 p).2.1
        t1 p).2.2.dbQueries = 0 := by
  cases hfe : c0.find? (fun x => x.1 == get_key_for_path digest p) with
  | none =>
      have hg0 : cacheGet c0 t0 (get_key_for_path digest p) = none := by
        simp [cacheGet, hfe]
      rcases hdb : get_from_db db c0 t0 p (get_key_for_path digest p) with
        ⟨r, c2, st⟩
      have hfst : get_for_url digest db c0 t0 p
          = (r, c2, ⟨st.dbQueries, st.cacheReads + 1, st.cacheWrites,
                     st.errorLogs⟩) := by
        simp [get_for_url, hval, get_from_cache, hg0, hdb]
      have hsec := db_branch_second_hit digest db c0 p t0 t1 hval httl
      rw [hdb] at hsec
      rw [hfst]
      exact hsec
  | some a =>
      rcases a with ⟨k, v, e⟩
      by_cases hte : t0 < e
      · have ht1e : t1 < e := hnoexp k v e hfe hte
        have hg0 : cacheGet c0 t0 (get_key_for_path digest p) = some v := by
          simp [cacheGet, hfe, hte]
        have hg1 : cacheGet c0 t1 (get_key_for_path digest p) = some v := by
          simp [cacheGet, hfe, ht1e]
        cases v with
        | neg =>
            have hfst : get_for_url digest db c0 t0 p
                = (PageResult.notFound, c0, ⟨0, 1, 0, 0⟩) := by
              simp [get_for_url, hval, get_from_cache, hg0]
            rw [hfst]
            simp [get_for_url, hval, get_from_cache, hg1]
        | pg q =>
            by_cases hq : q.url = p
            · have hfst : get_for_url digest db c0 t0 p
                  = (PageResult.page q, c0, ⟨0, 1, 0, 0⟩) := by
                simp [get_for_url, hval, get_from_cache, hg0, hq]
              rw [hfst]
              simp [get_for_url, hval, get_from_cache, hg1, hq]
            · have hbe : (q.url == p) = false := by simp [hq]
              rcases hdb : get_from_db db c0 t0 p
                  (get_key_for_path digest p) with ⟨r, c2, st⟩
              have hfst : get_for_url digest db c0 t0 p
                  = (r, c2, ⟨st.dbQueries, st.cacheReads + 1,
                             st.cacheWrites, st.errorLogs + 1⟩) := by
                simp [get_for_url, hval, get_from_cache, hg0, hbe, hdb]
              have hsec := db_branch_second_hit digest db c0 p t0 t1 hval
                httl
              rw [hdb] at hsec
              rw [hfst]
              exact hsec
      · have hg0 : cacheGet c0 t0 (get_key_for_path digest p) = none := by
          simp [cacheGet, hfe, hte]
        rcases hdb : get_from_db db c0 t0 p (get_key_for_path digest p) with
          ⟨r, c2, st⟩
        have hfst : get_for_url digest db c0 t0 p
            = (r, c2, ⟨st.dbQueries, st.cacheReads + 1, st.cacheWrites,
                       st.errorLogs⟩) := by
          simp [get_for_url, hval, get_from_cache, hg0, hdb]
        have hsec := db_branch_second_hit digest db c0 p t0 t1 hval httl
        rw [hdb] at hsec
        rw [hfst]
        exact hsec

/-- A character of the class `[a-z0-9-]` is not a newline. -/
theorem segChar_ne_newline {c : Char} (h : isSegChar c = true) :
    (c == '\n') = false := by
  cases hc : c == '\n' with
  | false => rfl
  | true =>
      have hcn : c = '\n' := eq_of_beq hc
      subst hcn
      exact absurd h (by decide)

/-- A string in the mathematical regex language is accepted by the
Python matcher. -/
theorem spec_implies_match (l : List Char) :
    (specSegs l = true → matchSegs l = true) ∧
    (specSegTail l = true → matchSegTail l = true) := by
  induction l with
  | nil =>
      constructor
      · intro _; simp [matchSegs]
      · intro h; simp [specSegTail] at h
  | cons c cs ih =>
      obtain ⟨ih1, ih2⟩ := ih
      constructor
      · intro h
        by_cases hsc : isSegChar c
        · simp only [specSegs, hsc, if_true] at h
          simp only [matchSegs, segChar_ne_newline hsc, Bool.false_eq_true,
                     if_false, hsc, if_true]
          exact ih2 h
        · simp [specSegs, hsc] at h
      · intro h
        by_cases hs : c = '/'
        · subst hs
          simp only [specSegTail, beq_self_eq_true, if_true] at h
          simp only [matchSegTail, beq_self_eq_true, if_true]
          exact ih1 h
        · have hsb : (c == '/') = false := by simp [hs]
          by_cases hsc : isSegChar c
          · simp only [specSegTail, hsb, Bool.false_eq_true, if_false,
                       hsc, if_true] at h
            simp only [matchSegTail, hsb, Bool.false_eq_true, if_false,
                       hsc, if_true]
            exact ih2 h
          · simp [specSegTail, hsb, hsc] at h

/-- A string in the mathematical regex language followed by one
trailing newline is accepted by the Python matcher (`$` matches just
before a final newline). -/
theorem spec_newline_implies_match (l : List Char) :
    (specSegs l = true → matchSegs (l ++ ['\n']) = true) ∧
    (specSegTail l = true → matchSegTail (l ++ ['\n']) = true) := by
  induction l with
  | nil =>
      constructor
      · intro _; simp [matchSegs]
      · intro h; simp [specSegTail] at h
  | cons c cs ih =>
      obtain ⟨ih1, ih2⟩ := ih
      constructor
      · intro h
        by_cases hsc : isSegChar c
        · simp only [specSegs, hsc, if_true] at h
          simp only [List.cons_append, matchSegs,
                     segChar_ne_newline hsc, Bool.false_eq_true, if_false,
                     hsc, if_true]
          exact ih2 h
        · simp [specSegs, hsc] at h
      · intro h
        by_cases hs : c = '/'
        · subst hs
          simp only [specSegTail, beq_self_eq_true, if_true] at h
          simp only [List.cons_append, matchSegTail, beq_self_eq_true,
                     if_true]
          exact ih1 h
        · have hsb : (c == '/') = false := by simp [hs]
          by_cases hsc : isSegChar c
          · simp only [specSegTail, hsb, Bool.false_eq_true, if_false,
                       hsc, if_true] at h
            simp only [List.cons_append, matchSegTail, hsb,
                       Bool.false_eq_true, if_false, hsc, if_true]
            exact ih2 h
          · simp [specSegTail, hsb, hsc] at h

/-- Every string the Python matcher accepts is in the mathematical
regex language, either as it stands or after removing one trailing
newline. -/
theorem match_implies_spec (l : List Char) :
    (matchSegs l = true →
       specSegs l = true ∨
         ∃ l2, l = l2 ++ ['\n'] ∧ specSegs l2 = true) ∧
    (matchSegTail l = true →
       specSegTail l = true ∨
         ∃ l2, l = l2 ++ ['\n'] ∧ specSegTail l2 = true) := by
  induction l with
  | nil =>
      constructor
      · intro _; left; rfl
      · intro h; simp [matchSegTail] at h
  | cons c cs ih =>
      obtain ⟨ih1, ih2⟩ := ih
      constructor
      · intro h
        by_cases hn : c = '\n'
        · subst hn
          simp only [matchSegs, beq_self_eq_true, if_true] at h
          have hcs : cs = [] := by simpa using h
          subst hcs
          right
          exact ⟨[], rfl, rfl⟩
        · have hnb : (c == '\n') = false := by simp [hn]
          by_cases hsc : isSegChar c
          · simp only [matchSegs, hnb, Bool.false_eq_true, if_false,
                       hsc, if_true] at h
            rcases ih2 h with h2 | ⟨l2, heq, hsp⟩
            · left; simp [specSegs, hsc, h2]
            · right
              refine ⟨c :: l2, by simp [heq], ?_⟩
              simp [specSegs, hsc, hsp]
          · simp [matchSegs, hnb, hsc] at h
      · intro h
        by_cases hs : c = '/'
        · subst hs
          simp only [matchSegTail, beq_self_eq_true, if_true] at h
          rcases ih1 h with h2 | ⟨l2, heq, hsp⟩
          · left; simp [specSegTail, h2]
          · right
            refine ⟨'/' :: l2, by simp [heq], ?_⟩
            simp [specSegTail, hsp]
        · have hsb : (c == '/') = false := by simp [hs]
          by_cases hsc : isSegChar c
          · simp only [matchSegTail, hsb, Bool.false_eq_true, if_false,
                       hsc, if_true] at h
            rcases ih2 h with h2 | ⟨l2, heq, hsp⟩
            · left; simp [specSegTail, hsb, hsc, h2]
            · right
              refine ⟨c :: l2, by simp [heq], ?_⟩
              simp [specSegTail, hsb, hsc, hsp]
          · simp [matchSegTail, hsb, hsc] at h

/-- C2 fails as stated: `is_root_relative_url "/blah/\n"` is true —
Python's `$` (no `re.MULTILINE`) also matches just before a newline
that ends the string — although `"/blah/\n"` is not in the
mathematical language of `^/([a-z0-9-]+/)*$` and ends with a newline,
not with `'/'`. -/
theorem regex_gloss_counterexample :
    is_root_relative_url "/blah/\n" = true ∧
    specPathValid "/blah/\n" = false ∧
    "/blah/\n".data.getLast? = some '\n' := by decide

/-- C2 (amended): `is_root_relative_url p` is true iff `p` matches
`^/([a-z0-9-]+/)*$` under Python `re` semantics, where `$` also
matches immediately before a trailing newline — that is, iff `p`
itself, or `p` with one final newline removed, begins and ends with
`/` with every segment made of lowercase ASCII letters, digits and
hyphens (the root `"/"` being valid). -/
theorem is_root_relative_url_amended (s : String) :
    is_root_relative_url s = true ↔
      (specPathValid s = true ∨
       ∃ t : String, s = t ++ "\n" ∧ specPathValid t = true) := by
  obtain ⟨l⟩ := s
  cases l with
  | nil =>
      constructor
      · intro h; simp [is_root_relative_url] at h
      · intro h
        rcases h with h | ⟨⟨lt⟩, heq, hsp⟩
        · simp [specPathValid] at h
        · have hdata := congrArg String.data heq
          simp [String.data_append] at hdata
  | cons c rest =>
      by_cases hc : c = '/'
      · subst hc
        have hlhs : is_root_relative_url (String.mk ('/' :: rest))
            = matchSegs rest := by
          simp [is_root_relative_url]
        rw [hlhs]
        constructor
        · intro h
          rcases (match_implies_spec rest).1 h with h2 | ⟨l2, heq, hsp⟩
          · left; simp [specPathValid, h2]
          · right
            refine ⟨String.mk ('/' :: l2), ?_, ?_⟩
            · apply String.ext
              simp [String.data_append, heq]
            · simp [specPathValid, hsp]
        · intro h
          rcases h with h | ⟨⟨lt⟩, heq, hsp⟩
          · have h2 : specSegs rest = true := by
              simpa [specPathValid] using h
            exact (spec_implies_match rest).1 h2
          · have hdata : '/' :: rest = lt ++ ['\n'] := by
              have := congrArg String.data heq
              simpa [String.data_append] using this
            cases lt with
            | nil => simp at hdata
            | cons c2 l2 =>
                simp only [List.cons_append, List.cons.injEq] at hdata
                obtain ⟨hc2, hrest⟩ := hdata
                have hsp2 : specSegs l2 = true := by
                  rw [← hc2] at hsp
                  simpa [specPathValid] using hsp
                rw [hrest]
                exact (spec_newline_implies_match l2).1 hsp2
      · constructor
        · intro h
          simp [is_root_relative_url, hc] at h
        · intro h
          exfalso
          rcases h with h | ⟨⟨lt⟩, heq, hsp⟩
          · simp [specPathValid, hc] at h
          · have hdata : c :: rest = lt ++ ['\n'] := by
              have := congrArg String.data heq
              simpa [String.data_append] using this
            cases lt with
            | nil =>
                simp [specPathValid] at hsp
            | cons c2 l2 =>
                simp only [List.cons_append, List.cons.injEq] at hdata
                obtain ⟨hc2, _⟩ := hdata
                rw [← hc2] at hsp
                simp [specPathValid, hc] at hsp

theorem is_root_relative_url_amended_witness :
    specPathValid "/blog/" = true ∨
    ∃ t : String, "/blog/" = t ++ "\n" ∧ specPathValid t = true :=
  (is_root_relative_url_amended "/blog/").mp (by decide)

theorem get_for_url_second_call_cached_witness :
    (get_for_url (fun s => s) []
        (get_for_url (fun s => s) [] [] 0 "/blog/").2.1 60 "/blog/").1
      = (get_for_url (fun s => s) [] [] 0 "/blog/").1 ∧
    (get_for_url (fun s => s) []
        (get_for_url (fun s => s) [] [] 0 "/blog/").2.1 60
        "/blog/").2.2.dbQueries = 0 :=
  get_for_url_second_call_cached (fun s => s) [] [] "/blog/" 0 60
    (by decide) (by omega) (by decide)
    (fun k v e h => by simp at h)

end FlexiblePages
